import Mathlib

/-!
Verification of the ArangoDB starter's setup-persistence / relaunch engine,
local slave orchestration, and the test harness's gone-detection loop,
shallowly embedded from:

  * src/service/setup_config.go  (saveSetup, relaunch, SetupConfigFile)
  * src/service/local_slaves.go  (createAndStartLocalSlaves, startLocalSlaves)
  * src/test/util.go             (WaitUntilStarterGone)

Go machine integers are modelled as `Int` (no arithmetic here comes near
2^63, so overflow is irrelevant); fallible operations return `Option`;
the state mutations of a `Service` and its side effects (log lines, the
HTTP server, slave launches, the runner) are made explicit in result
records.
-/

namespace ArangoStarter

/-- One participant in the cluster.  Modelled from the spec: the `Peer`
struct itself is declared outside `src/`; spec section 3 gives its fields
(`id`, `dataDir`, network address/port).  `createAndStartLocalSlaves`
(local_slaves.go line 38) builds it with `Peer{}` zero values and then
assigns `ID` and `DataDir`. -/
structure Peer where
  ID : String
  DataDir : String
  Address : String
  Port : Int
deriving DecidableEq, Repr

/-- Modelled from the spec: the `peers` registry type is declared outside
`src/`.  Spec section 3: an ordered list of peers together with the derived
agency size; the callers in `src/` use exactly the fields `.Peers`
(setup_config.go line 83) and `.AgencySize` (setup_config.go line 78). -/
structure peers where
  Peers : List Peer
  AgencySize : Int
deriving DecidableEq, Repr

/-- `SetupConfigVersion` (setup_config.go line 35). -/
def SetupConfigVersion : String := "0.2.1"

/-- `setupFileName` (setup_config.go line 36); the setup file lives at
`filepath.Join(s.DataDir, setupFileName)`. -/
def setupFileName : String := "setup.json"

/-- `SetupConfigFile`: the JSON structure stored in the setup file of this
process (setup_config.go lines 40-45). -/
structure SetupConfigFile where
  Version : String
  ID : String
  Peers : peers
  StartLocalSlaves : Bool
deriving DecidableEq, Repr

/-- Abstraction of the raw bytes of the setup file: `json cfg` stands for
bytes that are a valid JSON encoding of `cfg` (the case `json.Unmarshal`
succeeds on, and the bytes `json.Marshal cfg` produces), `truncated` for a
zero-length file (as left by the `O_TRUNC` step of `ioutil.WriteFile`
before the data is written), and `garbage` for any other bytes, on which
`json.Unmarshal` into `SetupConfigFile` fails. -/
inductive FileData where
  | json (cfg : SetupConfigFile)
  | truncated
  | garbage
deriving DecidableEq, Repr

/-- State of the single path `<DataDir>/setup.json` as seen by
`ioutil.ReadFile`: missing, present but unreadable (a read error other
than non-existence, e.g. a permission error), or readable with content. -/
inductive FileState where
  | absent
  | unreadable
  | present (d : FileData)
deriving DecidableEq, Repr

/-- `ioutil.ReadFile` at the setup path: returns the bytes exactly when the
read succeeds (`err == nil` in setup_config.go line 71). -/
def readFile : FileState → Option FileData
  | .present d => some d
  | .absent => none
  | .unreadable => none

/-- `json.Unmarshal` into a `SetupConfigFile` (setup_config.go line 74):
succeeds exactly on a valid encoding. -/
def jsonUnmarshal : FileData → Option SetupConfigFile
  | .json cfg => some cfg
  | .truncated => none
  | .garbage => none

/-- `json.Marshal` of a `SetupConfigFile` (setup_config.go line 55); for
this struct marshalling always succeeds, and it is inverted by
`jsonUnmarshal`. -/
def jsonMarshal (cfg : SetupConfigFile) : FileData := .json cfg

/-- Modelled from the spec: the parent configuration template (`s.Config`
in local_slaves.go line 64); the `Config` struct is declared outside
`src/`, so only the fields the code under `src/` reads or overrides are
kept. -/
structure Config where
  ID : String
  DataDir : String
  OwnAddress : String
  MasterAddress : String
  AgencySize : Int
  StartLocalSlaves : Bool
deriving DecidableEq, Repr

/-- Modelled from the spec: coordinator instance state (spec section 3);
the `Service` struct is declared outside `src/`, so this carries exactly
the fields that setup_config.go and local_slaves.go read or write. -/
structure Service where
  Config : Config
  ID : String
  DataDir : String
  OwnAddress : String
  announcePort : Int
  AgencySize : Int
  StartLocalSlaves : Bool
  myPeers : peers
deriving DecidableEq, Repr

/-- The `SetupConfigFile` value `saveSetup` builds (setup_config.go lines
49-54): the current schema version stamped, plus the instance's own id,
peer registry and start-local-slaves flag. -/
def Service.setupConfig (s : Service) : SetupConfigFile :=
  { Version := SetupConfigVersion
    ID := s.ID
    Peers := s.myPeers
    StartLocalSlaves := s.StartLocalSlaves }

/-- Observable states of the target file while `ioutil.WriteFile` runs
(setup_config.go line 60).  `ioutil.WriteFile` opens the target itself
with `O_WRONLY|O_CREATE|O_TRUNC` and then writes the bytes: after the
truncation and before the write completes a concurrent reader sees a
zero-length file, afterwards the full content.  There is no temporary
file and no rename. -/
def ioutilWriteFile (d : FileData) : List FileState :=
  [FileState.present .truncated, FileState.present d]

/-- The sequence of file states a concurrent reader of
`<DataDir>/setup.json` can observe once `saveSetup`'s write has started
(setup_config.go lines 48-65), ending in the final state. -/
def Service.saveSetupStates (s : Service) : List FileState :=
  ioutilWriteFile (jsonMarshal s.setupConfig)

/-- Final state of the setup file after a successful `saveSetup`
(setup_config.go lines 48-65). -/
def Service.saveSetup (s : Service) : FileState :=
  FileState.present (jsonMarshal s.setupConfig)

/-- Log lines `relaunch` can emit (setup_config.go lines 79, 89, 91). -/
inductive LogEvent where
  | infoRelaunching
  | warnOutdated
  | warnUnmarshal
deriving DecidableEq, Repr

/-- Everything observable about one call to `Service.relaunch`: the
returned boolean, the instance state afterwards, the log lines emitted,
whether the HTTP server / runner were started, the peer list
`startLocalSlaves` was invoked with (if it was), and the state of the
setup file afterwards (`relaunch` never writes it). -/
structure RelaunchResult where
  relaunched : Bool
  service : Service
  logs : List LogEvent
  httpServerStarted : Bool
  slavesStartedWith : Option (List Peer)
  runnerStarted : Bool
  fileAfter : FileState
deriving DecidableEq, Repr

/-- The result of every fresh-start path of `relaunch` (`return false`,
setup_config.go line 94): no state change, no side effect beyond the
given log lines, file untouched. -/
def freshStartResult (s : Service) (fs : FileState) (logs : List LogEvent) : RelaunchResult :=
  { relaunched := false
    service := s
    logs := logs
    httpServerStarted := false
    slavesStartedWith := none
    runnerStarted := false
    fileAfter := fs }

/-- `Service.relaunch` (setup_config.go lines 69-95), as a function of the
state `fs` of `<DataDir>/setup.json`.  Reads the file; on success
unmarshals; on success compares the version; on a match it installs the
restored peers and id, re-derives `AgencySize` from the restored registry,
starts the HTTP server, invokes `startLocalSlaves` with the restored peer
list when the restored flag is set, and starts running.  Every other path
falls through to `return false`. -/
def Service.relaunch (s : Service) (fs : FileState) : RelaunchResult :=
  match readFile fs with
  | some content =>
    match jsonUnmarshal content with
    | some cfg =>
      if cfg.Version = SetupConfigVersion then
        let s1 : Service :=
          { s with myPeers := cfg.Peers, ID := cfg.ID, AgencySize := cfg.Peers.AgencySize }
        { relaunched := true
          service := s1
          logs := [.infoRelaunching]
          httpServerStarted := true
          slavesStartedWith := if cfg.StartLocalSlaves then some cfg.Peers.Peers else none
          runnerStarted := true
          fileAfter := fs }
      else freshStartResult s fs [.warnOutdated]
    | none => freshStartResult s fs [.warnUnmarshal]
  | none => freshStartResult s fs []

/-- The set of inputs in which claim C2 asserts `relaunch` yields a fresh
start: file absent, or present but not parseable, or parseable with a
version different from the running code's `SetupConfigVersion`. -/
def relaunchFreshStartClaimedCases (fs : FileState) : Prop :=
  fs = .absent
    ∨ (∃ d, fs = .present d ∧ jsonUnmarshal d = none)
    ∨ (∃ cfg, fs = .present (.json cfg) ∧ cfg.Version ≠ SetupConfigVersion)

/-- A concrete example coordinator instance, used to instantiate theorems
with hypotheses at concrete inputs. -/
def examplePeer : Peer :=
  { ID := "a1", DataDir := "/data/a1", Address := "", Port := 0 }

def examplePeers : peers :=
  { Peers := [examplePeer], AgencySize := 1 }

def exampleConfig : Config :=
  { ID := "a1", DataDir := "/data", OwnAddress := "", MasterAddress := ""
    AgencySize := 3, StartLocalSlaves := true }

def exampleService : Service :=
  { Config := exampleConfig, ID := "a1", DataDir := "/data", OwnAddress := ""
    announcePort := 4, AgencySize := 3, StartLocalSlaves := false
    myPeers := examplePeers }

/-- A concrete setup record with matching version for instantiating the
relaunch theorems. -/
def exampleSetupConfig : SetupConfigFile :=
  { Version := SetupConfigVersion, ID := "b7", Peers := examplePeers
    StartLocalSlaves := true }

/-- Big-endian decimal digit characters of `n`, with explicit fuel for
structural recursion; for `fuel ≥ n ≥ 1` this renders all digits of `n`.
Together with `natDecStr` it models the decimal formatting done by Go's
`fmt.Sprintf` / `strconv.Itoa` (standard library, outside this repo). -/
def natDecAux : Nat → Nat → List Char
  | 0, _ => []
  | fuel + 1, n =>
    if n = 0 then []
    else natDecAux fuel (n / 10) ++ [Nat.digitChar (n % 10)]

/-- Decimal rendering of a natural number (Go `fmt.Sprintf("%d", n)` for
nonnegative `n`). -/
def natDecStr (n : Nat) : String :=
  if n = 0 then "0" else ⟨natDecAux n n⟩

/-- Decimal rendering of a Go `int` (`strconv.Itoa`). -/
def intDecStr (i : Int) : String :=
  if i < 0 then "-" ++ natDecStr i.natAbs else natDecStr i.toNat

/-- Numeric value of a decimal digit character, the left inverse used to
prove `natDecStr` injective on positive numbers. -/
def decodeDigit (c : Char) : Nat := c.toNat - 48

/-- Fold a decimal digit-character list back into a number, starting from
`acc`. -/
def decodeDec (acc : Nat) (l : List Char) : Nat :=
  l.foldl (fun a c => a * 10 + decodeDigit c) acc

/-- `filepath.Join dir name` for a clean directory path and a clean
relative name, as used at setup_config.go line 60 and local_slaves.go
line 45. -/
def joinPath (dir name : String) : String := dir ++ "/" ++ name

/-- `net.JoinHostPort` from the Go standard library (local_slaves.go line
59): wraps the host in square brackets when it contains a colon, then
joins host and port with a colon. -/
def joinHostPort (host port : String) : String :=
  if host.data.contains ':' then "[" ++ host ++ "]:" ++ port else host ++ ":" ++ port

/-- The index sequence of the slave-creation loop
`for index := 2; index <= s.AgencySize; index++` (local_slaves.go line
37): `[2, ..., agencySize]`, empty when `agencySize ≤ 1`. -/
def slaveIndexes (agencySize : Int) : List Nat :=
  List.range' 2 (agencySize - 1).toNat

/-- The peer-creation loop of `createAndStartLocalSlaves` (local_slaves.go
lines 36-47).  `ids index` is the result of the `createUniqueID()` call of
iteration `index` — modelled from the spec (section 4.1): the generator
itself is outside `src/`, so it is an oracle here; `none` is a
`GenerationError`, on which the iteration logs and skips that slave.  The
data directory is `filepath.Join(s.DataDir, fmt.Sprintf("local-slave-%d",
index-1))`; the other `Peer` fields stay at their `Peer{}` zero values. -/
def Service.createLocalSlavePeers (s : Service) (ids : Nat → Option String) : List Peer :=
  (slaveIndexes s.AgencySize).filterMap fun index =>
    (ids index).map fun id =>
      { ID := id
        DataDir := joinPath s.DataDir ("local-slave-" ++ natDecStr (index - 1))
        Address := ""
        Port := 0 }

/-- The master address computed once by `startLocalSlaves`
(local_slaves.go lines 55-59): the parent's own address if set, otherwise
the loopback address, joined with the parent's announce port. -/
def Service.masterAddr (s : Service) : String :=
  joinHostPort (if s.OwnAddress = "" then "127.0.0.1" else s.OwnAddress)
    (intDecStr s.announcePort)

/-- The clone-and-override of the parent's configuration for one peer
(local_slaves.go lines 64-68): identity, data directory and master
address are overridden and `StartLocalSlaves` is forced to false. -/
def Service.slaveConfig (s : Service) (p : Peer) : ArangoStarter.Config :=
  { s.Config with
      ID := p.ID
      DataDir := p.DataDir
      MasterAddress := s.masterAddr
      StartLocalSlaves := false }

/-- One iteration of the `startLocalSlaves` loop body (local_slaves.go
lines 60-79) for peer `p`: peers carrying the parent's own ID are
skipped; otherwise the parent config is cloned and overridden and, when
`NewService` succeeds (`newServiceOk`), the slave service is started with
that configuration (a failure is logged and skipped). -/
def slaveStart (s : Service) (newServiceOk : Config → Bool) (p : Peer) : Option Config :=
  if p.ID = s.ID then none
  else
    let config := s.slaveConfig p
    if newServiceOk config then some config else none

/-- The configurations of the slave services `startLocalSlaves` actually
starts, in order (local_slaves.go lines 52-81). -/
def Service.startLocalSlavesStarted (s : Service)
    (newServiceOk : ArangoStarter.Config → Bool)
    (ps : List Peer) : List ArangoStarter.Config :=
  ps.filterMap (slaveStart s newServiceOk)

/-- The configurations of the slave services started by a fresh
`createAndStartLocalSlaves` (local_slaves.go lines 35-49). -/
def Service.createAndStartLocalSlavesStarted (s : Service) (ids : Nat → Option String)
    (newServiceOk : ArangoStarter.Config → Bool) : List ArangoStarter.Config :=
  s.startLocalSlavesStarted newServiceOk (s.createLocalSlavePeers ids)

/-- The peer built by iteration `index` of the creation loop when
`createUniqueID` returned `f index`; proof-side description of the loop's
per-index result. -/
def slavePeerOf (s : Service) (f : Nat → String) (index : Nat) : Peer :=
  { ID := f index
    DataDir := joinPath s.DataDir ("local-slave-" ++ natDecStr (index - 1))
    Address := ""
    Port := 0 }

/-- `WaitUntilStarterGone`'s polling loop (test/util.go lines 189-205),
run over the finite prefix `qs` of version-query outcomes available
(`true` = the query returned an error).  Each iteration increments the
failure counter on an error and resets it to zero on a success, then
stops when the counter exceeds 2.  The result is the number of queries
consumed when the starter is declared gone, and `none` when the prefix
is exhausted without that — the real loop would keep polling forever. -/
def waitUntilStarterGone (failures : Nat) : List Bool → Option Nat
  | [] => none
  | q :: qs =>
    let failures1 := if q then failures + 1 else 0
    if failures1 > 2 then some 1
    else (waitUntilStarterGone failures1 qs).map (· + 1)

/-- Three consecutive failed version queries occur somewhere in the
outcome sequence. -/
def hasThreeConsecutiveFailures (qs : List Bool) : Prop :=
  ∃ a b, qs = a ++ [true, true, true] ++ b

/-- A concrete `createUniqueID` oracle for the witness instantiations. -/
def exampleIds : Nat → Option String := fun i =>
  if i = 2 then some "s2" else if i = 3 then some "s3" else none

/-- The names `exampleIds` produces on the example loop range. -/
def exampleIdNames : Nat → String := fun i => if i = 2 then "s2" else "s3"

/-- A `NewService` oracle that always succeeds. -/
def allOk : Config → Bool := fun _ => true

/-- A concrete slave peer for the witness instantiations; its ID differs
from `exampleService`'s. -/
def examplePeerB : Peer :=
  { ID := "s9", DataDir := "/data/ls1", Address := "", Port := 0 }

/-- Claim C1: saving a setup record with instance state `(P, id, flag)` via
`saveSetup` and then reading the setup file back the way `relaunch` does
yields a record whose peers, id and start-local-slaves flag equal
`(P, id, flag)` and whose version equals the current schema version;
consequently a relaunch from the saved file succeeds and restores exactly
that state. -/
theorem saveSetup_relaunch_roundtrip (s t : Service) :
    (∃ cfg, (readFile s.saveSetup).bind jsonUnmarshal = some cfg ∧
        cfg.Peers = s.myPeers ∧ cfg.ID = s.ID ∧
        cfg.StartLocalSlaves = s.StartLocalSlaves ∧ cfg.Version = SetupConfigVersion)
      ∧ (t.relaunch s.saveSetup).relaunched = true
      ∧ (t.relaunch s.saveSetup).service.myPeers = s.myPeers
      ∧ (t.relaunch s.saveSetup).service.ID = s.ID
      ∧ (t.relaunch s.saveSetup).slavesStartedWith
          = (if s.StartLocalSlaves then some s.myPeers.Peers else none) := by
  refine ⟨⟨s.setupConfig, rfl, rfl, rfl, rfl, rfl⟩, ?_, ?_, ?_, ?_⟩ <;>
    simp [Service.relaunch, Service.saveSetup, jsonMarshal, readFile, jsonUnmarshal,
      Service.setupConfig]

/-- Claim C2 counterexample: with the setup file present but unreadable
(for example a permission error), `relaunch` returns false although none
of the three cases the claim lists (file absent, file unparseable,
version mismatch) holds. -/
theorem relaunch_unreadable_refutes_claimed_cases :
    (exampleService.relaunch .unreadable).relaunched = false
      ∧ ¬ relaunchFreshStartClaimedCases .unreadable := by
  refine ⟨rfl, ?_⟩
  rintro (h | ⟨d, h, -⟩ | ⟨cfg, h, -⟩) <;> exact nomatch h

/-- Claim C2 (amended): `relaunch` returns false exactly when the setup
file cannot be read (absent, or present but unreadable), fails to parse,
or carries a version different from the running code's
`SetupConfigVersion`; a warning is logged in the parse-failure and
version-mismatch cases; and on every false return the instance state is
left unchanged (the outcome is never fatal and no partially-applied state
results). -/
theorem relaunch_freshStart_exactly (s : Service) (fs : FileState) :
    ((s.relaunch fs).relaunched = false ↔
        (relaunchFreshStartClaimedCases fs ∨ fs = .unreadable))
      ∧ (∀ d, fs = .present d → jsonUnmarshal d = none →
          (s.relaunch fs).logs = [.warnUnmarshal])
      ∧ (∀ cfg, fs = .present (.json cfg) → cfg.Version ≠ SetupConfigVersion →
          (s.relaunch fs).logs = [.warnOutdated])
      ∧ ((s.relaunch fs).relaunched = false → (s.relaunch fs).service = s) := by
  rcases fs with _ | _ | (cfg | _ | _)
  · refine ⟨⟨fun _ => Or.inl (Or.inl rfl), fun _ => rfl⟩, ?_, ?_, fun _ => rfl⟩
    · intro d hd; cases hd
    · intro cfg hc; cases hc
  · refine ⟨⟨fun _ => Or.inr rfl, fun _ => rfl⟩, ?_, ?_, fun _ => rfl⟩
    · intro d hd; cases hd
    · intro cfg hc; cases hc
  · by_cases hv : cfg.Version = SetupConfigVersion
    · refine ⟨⟨?_, ?_⟩, ?_, ?_, ?_⟩
      · intro h
        simp [Service.relaunch, readFile, jsonUnmarshal, hv] at h
      · rintro ((h | ⟨d, hd, hu⟩ | ⟨cfg2, hc, hvne⟩) | h)
        · cases h
        · cases hd; simp [jsonUnmarshal] at hu
        · cases hc; exact absurd hv hvne
        · cases h
      · intro d hd hu; cases hd; simp [jsonUnmarshal] at hu
      · intro cfg2 hc hvne; cases hc; exact absurd hv hvne
      · intro h; simp [Service.relaunch, readFile, jsonUnmarshal, hv] at h
    · refine ⟨⟨?_, ?_⟩, ?_, ?_, ?_⟩
      · intro _
        exact Or.inl (Or.inr (Or.inr ⟨cfg, rfl, hv⟩))
      · intro _
        simp [Service.relaunch, readFile, jsonUnmarshal, hv, freshStartResult]
      · intro d hd hu; cases hd; simp [jsonUnmarshal] at hu
      · intro cfg2 hc _; cases hc
        simp [Service.relaunch, readFile, jsonUnmarshal, hv, freshStartResult]
      · intro _
        simp [Service.relaunch, readFile, jsonUnmarshal, hv, freshStartResult]
  · refine ⟨⟨fun _ => Or.inl (Or.inr (Or.inl ⟨.truncated, rfl, rfl⟩)), fun _ => rfl⟩,
      ?_, ?_, fun _ => rfl⟩
    · intro d hd hu; cases hd; rfl
    · intro cfg2 hc; cases hc
  · refine ⟨⟨fun _ => Or.inl (Or.inr (Or.inl ⟨.garbage, rfl, rfl⟩)), fun _ => rfl⟩,
      ?_, ?_, fun _ => rfl⟩
    · intro d hd hu; cases hd; rfl
    · intro cfg2 hc; cases hc

/-- Claim C2 witness: the amended theorem applied at a concrete service
and a present-but-garbage setup file yields the unmarshal warning. -/
theorem relaunch_freshStart_exactly_witness :
    (exampleService.relaunch (.present .garbage)).logs = [.warnUnmarshal] :=
  (relaunch_freshStart_exactly exampleService (.present .garbage)).2.1 .garbage rfl rfl

/-- Claim C3: when the setup file parses and its version matches,
`relaunch` returns true, restores the embedded peer list and identity
verbatim into the instance, re-derives the agency size from the restored
registry (not from fresh configuration), and invokes `startLocalSlaves`
with the restored peer list exactly when the restored record's flag is
set. -/
theorem relaunch_version_match (s : Service) (cfg : SetupConfigFile)
    (hv : cfg.Version = SetupConfigVersion) :
    (s.relaunch (.present (.json cfg))).relaunched = true
      ∧ (s.relaunch (.present (.json cfg))).service.myPeers = cfg.Peers
      ∧ (s.relaunch (.present (.json cfg))).service.ID = cfg.ID
      ∧ (s.relaunch (.present (.json cfg))).service.AgencySize = cfg.Peers.AgencySize
      ∧ (s.relaunch (.present (.json cfg))).slavesStartedWith
          = (if cfg.StartLocalSlaves then some cfg.Peers.Peers else none)
      ∧ (s.relaunch (.present (.json cfg))).httpServerStarted = true
      ∧ (s.relaunch (.present (.json cfg))).runnerStarted = true := by
  simp [Service.relaunch, readFile, jsonUnmarshal, hv]

/-- Claim C3 witness: the theorem applied at a concrete service and a
concrete matching setup record with the start-local-slaves flag set. -/
theorem relaunch_version_match_witness :
    (exampleService.relaunch (.present (.json exampleSetupConfig))).relaunched = true
      ∧ (exampleService.relaunch (.present (.json exampleSetupConfig))).service.myPeers
          = exampleSetupConfig.Peers
      ∧ (exampleService.relaunch (.present (.json exampleSetupConfig))).service.ID
          = exampleSetupConfig.ID
      ∧ (exampleService.relaunch (.present (.json exampleSetupConfig))).service.AgencySize
          = exampleSetupConfig.Peers.AgencySize
      ∧ (exampleService.relaunch (.present (.json exampleSetupConfig))).slavesStartedWith
          = (if exampleSetupConfig.StartLocalSlaves
              then some exampleSetupConfig.Peers.Peers else none)
      ∧ (exampleService.relaunch (.present (.json exampleSetupConfig))).httpServerStarted = true
      ∧ (exampleService.relaunch (.present (.json exampleSetupConfig))).runnerStarted = true :=
  relaunch_version_match exampleService exampleSetupConfig rfl

/-- Claim C4 counterexample: while `saveSetup`'s `ioutil.WriteFile` runs,
a concurrent reader of the setup file can observe the truncated
intermediate state, which differs both from the prior state (here:
absent) and from the final saved content, so the write is not an atomic
replace. -/
theorem saveSetup_not_atomic :
    FileState.present .truncated ∈ exampleService.saveSetupStates
      ∧ FileState.present .truncated ≠ FileState.absent
      ∧ FileState.present .truncated ≠ exampleService.saveSetup := by
  decide

/-- Claim C4 (amended): `saveSetup` writes the setup file with a single
direct `ioutil.WriteFile` (truncate, then write) rather than a
write-to-temp-then-rename: the final observable state is the complete
marshalled record, but a concurrent reader may additionally observe the
truncated intermediate state, and no state other than these two. -/
theorem saveSetup_write_states (s : Service) :
    s.saveSetupStates.getLast? = some (FileState.present (jsonMarshal s.setupConfig))
      ∧ s.saveSetup = FileState.present (jsonMarshal s.setupConfig)
      ∧ ∀ st ∈ s.saveSetupStates,
          st = FileState.present .truncated
            ∨ st = FileState.present (jsonMarshal s.setupConfig) := by
  refine ⟨rfl, rfl, ?_⟩
  intro st hst
  simpa [Service.saveSetupStates, ioutilWriteFile] using hst

/-- Claim C4 witness: the amended theorem applied at the concrete example
service, evaluating the truncated intermediate state's membership. -/
theorem saveSetup_write_states_witness :
    exampleService.saveSetupStates.getLast?
        = some (FileState.present (jsonMarshal exampleService.setupConfig))
      ∧ (FileState.present FileData.truncated = FileState.present FileData.truncated
          ∨ FileState.present FileData.truncated
              = FileState.present (jsonMarshal exampleService.setupConfig)) :=
  ⟨(saveSetup_write_states exampleService).1,
    (saveSetup_write_states exampleService).2.2 _ (by decide)⟩

/-- Claim C9: whenever `relaunch` returns false, the instance state it
owns is unchanged, the setup file on disk is not modified, and none of
the relaunch side effects (HTTP server, slave launches, runner) has
happened. -/
theorem relaunch_freshStart_no_side_effects (s : Service) (fs : FileState)
    (h : (s.relaunch fs).relaunched = false) :
    (s.relaunch fs).service = s ∧ (s.relaunch fs).fileAfter = fs
      ∧ (s.relaunch fs).httpServerStarted = false
      ∧ (s.relaunch fs).slavesStartedWith = none
      ∧ (s.relaunch fs).runnerStarted = false := by
  rcases fs with _ | _ | (cfg | _ | _)
  · exact ⟨rfl, rfl, rfl, rfl, rfl⟩
  · exact ⟨rfl, rfl, rfl, rfl, rfl⟩
  · by_cases hv : cfg.Version = SetupConfigVersion
    · simp [Service.relaunch, readFile, jsonUnmarshal, hv] at h
    · simp [Service.relaunch, readFile, jsonUnmarshal, hv, freshStartResult]
  · exact ⟨rfl, rfl, rfl, rfl, rfl⟩
  · exact ⟨rfl, rfl, rfl, rfl, rfl⟩

/-- Claim C9 witness: the theorem applied at a concrete service with an
absent setup file. -/
theorem relaunch_freshStart_no_side_effects_witness :
    (exampleService.relaunch .absent).service = exampleService
      ∧ (exampleService.relaunch .absent).fileAfter = .absent
      ∧ (exampleService.relaunch .absent).httpServerStarted = false
      ∧ (exampleService.relaunch .absent).slavesStartedWith = none
      ∧ (exampleService.relaunch .absent).runnerStarted = false :=
  relaunch_freshStart_no_side_effects exampleService .absent rfl

/-- Claim C10: a present-but-unreadable setup file is treated exactly like
an absent one — `relaunch` returns false with no warning logged and no
state change, behaving identically to the absent case. -/
theorem relaunch_unreadable_silent (s : Service) :
    (s.relaunch .unreadable).relaunched = false
      ∧ (s.relaunch .unreadable).logs = []
      ∧ (s.relaunch .unreadable).service = s
      ∧ (s.relaunch .unreadable).relaunched = (s.relaunch .absent).relaunched
      ∧ (s.relaunch .unreadable).logs = (s.relaunch .absent).logs
      ∧ (s.relaunch .unreadable).service = (s.relaunch .absent).service
      ∧ (s.relaunch .unreadable).slavesStartedWith
          = (s.relaunch .absent).slavesStartedWith :=
  ⟨rfl, rfl, rfl, rfl, rfl, rfl, rfl⟩

/-- A list `filterMap` over entries that all yield `some` is a `map`. -/
theorem filterMap_eq_map_of_some {α β : Type} (g : α → Option β) (g2 : α → β) :
    ∀ l : List α, (∀ a ∈ l, g a = some (g2 a)) → l.filterMap g = l.map g2 := by
  intro l
  induction l with
  | nil => intro _; rfl
  | cons a l ih =>
    intro h
    rw [List.filterMap_cons_some (h a (List.mem_cons_self a l)), List.map_cons,
      ih fun b hb => h b (List.mem_cons_of_mem a hb)]

/-- Decoding a digit character produced by `Nat.digitChar` recovers the
digit. -/
theorem decodeDigit_digitChar : ∀ d : Nat, d < 10 → decodeDigit (Nat.digitChar d) = d := by
  decide

/-- Folding a decimal rendering back into a number: appending one digit
multiplies the accumulated value by ten and adds the digit. -/
theorem decodeDec_append_singleton (acc : Nat) (l : List Char) (c : Char) :
    decodeDec acc (l ++ [c]) = (decodeDec acc l) * 10 + decodeDigit c := by
  simp [decodeDec, List.foldl_append]

/-- `decodeDec` is a left inverse of `natDecAux` for sufficient fuel. -/
theorem decodeDec_natDecAux (fuel : Nat) :
    ∀ n acc, n ≤ fuel →
      decodeDec acc (natDecAux fuel n) = acc * 10 ^ (natDecAux fuel n).length + n := by
  induction fuel with
  | zero =>
    intro n acc hn
    have h0 : n = 0 := Nat.le_zero.mp hn
    subst h0
    simp [natDecAux, decodeDec]
  | succ fuel ih =>
    intro n acc hn
    by_cases h0 : n = 0
    · subst h0
      simp [natDecAux, decodeDec]
    · have hpos : 0 < n := Nat.pos_of_ne_zero h0
      have hdiv : n / 10 ≤ fuel := by
        have h1 : n / 10 < n := Nat.div_lt_self hpos (by omega)
        omega
      have hstep : natDecAux (fuel + 1) n
          = natDecAux fuel (n / 10) ++ [Nat.digitChar (n % 10)] := by
        simp [natDecAux, h0]
      rw [hstep, decodeDec_append_singleton, ih (n / 10) acc hdiv,
        decodeDigit_digitChar (n % 10) (Nat.mod_lt n (by omega)),
        List.length_append]
      have hone : ([Nat.digitChar (n % 10)] : List Char).length = 1 := rfl
      rw [hone, pow_succ]
      have harith : ∀ X : Nat, (X + n / 10) * 10 + n % 10 = X * 10 + n := by
        intro X
        omega
      rw [harith (acc * 10 ^ (natDecAux fuel (n / 10)).length), Nat.mul_assoc]

/-- The decimal rendering is injective on positive numbers. -/
theorem natDecStr_inj_pos (m n : Nat) (hm : m ≠ 0) (hn : n ≠ 0)
    (h : natDecStr m = natDecStr n) : m = n := by
  simp only [natDecStr] at h
  rw [if_neg hm, if_neg hn] at h
  have hdata : natDecAux m m = natDecAux n n := congrArg String.data h
  have h1 := decodeDec_natDecAux m m 0 (Nat.le_refl m)
  have h2 := decodeDec_natDecAux n n 0 (Nat.le_refl n)
  rw [hdata] at h1
  simp only [Nat.zero_mul, Nat.zero_add] at h1 h2
  exact h1.symm.trans h2

/-- Appending to a fixed string on the left is injective. -/
theorem string_append_right_inj (p : String) {a b : String} (h : p ++ a = p ++ b) : a = b := by
  have hd := congrArg String.data h
  simp only [String.data_append] at hd
  exact String.ext (List.append_cancel_left hd)

/-- `joinPath dir` is injective in the name component. -/
theorem joinPath_right_inj (dir : String) {a b : String}
    (h : joinPath dir a = joinPath dir b) : a = b :=
  string_append_right_inj (dir ++ "/") h

/-- A joined path is never equal to the directory it starts from. -/
theorem joinPath_ne_dir (dir name : String) : joinPath dir name ≠ dir := by
  intro h
  have hlen := congrArg (fun s : String => s.data.length) h
  simp only [joinPath, String.data_append, List.length_append, List.length_cons,
    List.length_nil] at hlen
  omega

/-- The loop body starts a slave for every peer whose ID is not the
parent's, provided `NewService` succeeds. -/
theorem slaveStart_eq_some (s : Service) (newServiceOk : Config → Bool) (p : Peer)
    (hne : p.ID ≠ s.ID) (hok : newServiceOk (s.slaveConfig p) = true) :
    slaveStart s newServiceOk p = some (s.slaveConfig p) := by
  simp only [slaveStart]
  rw [if_neg hne, if_pos hok]

/-- Every index the creation loop visits is at least 2. -/
theorem slaveIndexes_le (agencySize : Int) :
    ∀ i ∈ slaveIndexes agencySize, 2 ≤ i := by
  intro i hi
  rw [slaveIndexes, List.mem_range'] at hi
  obtain ⟨k, hk, rfl⟩ := hi
  omega

/-- Claim C5: with every unique-ID allocation succeeding (and the
generator honouring its section-4.1 contract: fresh, pairwise-distinct
IDs) and every slave-service construction succeeding, a fresh
`createAndStartLocalSlaves` with `agencySize = N ≥ 2` launches exactly
`N - 1` slaves, with pairwise-distinct data directories all different
from the parent's, pairwise-distinct identifiers, and no identifier equal
to the parent's; with `agencySize ≤ 1` it launches none. -/
theorem createAndStartLocalSlaves_launches (s : Service)
    (ids : Nat → Option String) (newServiceOk : Config → Bool) (f : Nat → String)
    (hids : ∀ i ∈ slaveIndexes s.AgencySize, ids i = some (f i))
    (hinj : ∀ i ∈ slaveIndexes s.AgencySize, ∀ j ∈ slaveIndexes s.AgencySize,
      f i = f j → i = j)
    (hfresh : ∀ i ∈ slaveIndexes s.AgencySize, f i ≠ s.ID)
    (hok : ∀ c, newServiceOk c = true) :
    (s.createAndStartLocalSlavesStarted ids newServiceOk).length = (s.AgencySize - 1).toNat
      ∧ ((s.createAndStartLocalSlavesStarted ids newServiceOk).map Config.DataDir).Nodup
      ∧ (∀ c ∈ s.createAndStartLocalSlavesStarted ids newServiceOk, c.DataDir ≠ s.DataDir)
      ∧ ((s.createAndStartLocalSlavesStarted ids newServiceOk).map Config.ID).Nodup
      ∧ (∀ c ∈ s.createAndStartLocalSlavesStarted ids newServiceOk, c.ID ≠ s.ID)
      ∧ (s.AgencySize ≤ 1 → s.createAndStartLocalSlavesStarted ids newServiceOk = []) := by
  have hpeers : s.createLocalSlavePeers ids
      = (slaveIndexes s.AgencySize).map (slavePeerOf s f) := by
    rw [Service.createLocalSlavePeers]
    apply filterMap_eq_map_of_some
    intro i hi
    rw [hids i hi]
    rfl
  have hres : s.createAndStartLocalSlavesStarted ids newServiceOk
      = (slaveIndexes s.AgencySize).map (fun i => s.slaveConfig (slavePeerOf s f i)) := by
    rw [Service.createAndStartLocalSlavesStarted, hpeers, Service.startLocalSlavesStarted,
      List.filterMap_map]
    apply filterMap_eq_map_of_some
    intro i hi
    exact slaveStart_eq_some s newServiceOk (slavePeerOf s f i) (hfresh i hi) (hok _)
  refine ⟨?_, ?_, ?_, ?_, ?_, ?_⟩
  · rw [hres, List.length_map, slaveIndexes, List.length_range']
  · rw [hres, List.map_map]
    refine List.Nodup.map_on ?_ (List.nodup_range' _ _)
    intro i hi j hj hij
    have hij2 : joinPath s.DataDir ("local-slave-" ++ natDecStr (i - 1))
        = joinPath s.DataDir ("local-slave-" ++ natDecStr (j - 1)) := hij
    have h3 := string_append_right_inj "local-slave-" (joinPath_right_inj s.DataDir hij2)
    have hi2 := slaveIndexes_le s.AgencySize i hi
    have hj2 := slaveIndexes_le s.AgencySize j hj
    have h4 := natDecStr_inj_pos (i - 1) (j - 1) (by omega) (by omega) h3
    omega
  · intro c hc
    rw [hres] at hc
    obtain ⟨i, hi, rfl⟩ := List.mem_map.mp hc
    exact joinPath_ne_dir s.DataDir _
  · rw [hres, List.map_map]
    refine List.Nodup.map_on ?_ (List.nodup_range' _ _)
    intro i hi j hj hij
    have hij2 : f i = f j := hij
    exact hinj i hi j hj hij2
  · intro c hc
    rw [hres] at hc
    obtain ⟨i, hi, rfl⟩ := List.mem_map.mp hc
    exact hfresh i hi
  · intro hA
    rw [hres, slaveIndexes, Int.toNat_of_nonpos (by omega)]
    rfl

/-- Claim C5 witness: the theorem applied at the concrete example service
(agency size 3) with a concrete two-slave ID oracle. -/
theorem createAndStartLocalSlaves_launches_witness :
    (exampleService.createAndStartLocalSlavesStarted exampleIds allOk).length
        = (exampleService.AgencySize - 1).toNat
      ∧ ((exampleService.createAndStartLocalSlavesStarted exampleIds allOk).map
          Config.DataDir).Nodup
      ∧ (∀ c ∈ exampleService.createAndStartLocalSlavesStarted exampleIds allOk,
          c.DataDir ≠ exampleService.DataDir)
      ∧ ((exampleService.createAndStartLocalSlavesStarted exampleIds allOk).map
          Config.ID).Nodup
      ∧ (∀ c ∈ exampleService.createAndStartLocalSlavesStarted exampleIds allOk,
          c.ID ≠ exampleService.ID)
      ∧ (exampleService.AgencySize ≤ 1 →
          exampleService.createAndStartLocalSlavesStarted exampleIds allOk = []) :=
  createAndStartLocalSlaves_launches exampleService exampleIds allOk exampleIdNames
    (by decide) (by decide) (by decide) (fun _ => rfl)

/-- Claim C6: every slave configuration started by `startLocalSlaves`
carries the master address computed once from the parent: the parent's
own address when set (byte-for-byte), otherwise the loopback address
`127.0.0.1`, joined with the parent's announce port. -/
theorem startLocalSlaves_masterAddress (s : Service) (newServiceOk : Config → Bool)
    (ps : List Peer) (c : Config)
    (hc : c ∈ s.startLocalSlavesStarted newServiceOk ps) :
    c.MasterAddress
        = joinHostPort (if s.OwnAddress = "" then "127.0.0.1" else s.OwnAddress)
            (intDecStr s.announcePort)
      ∧ c.MasterAddress = s.masterAddr := by
  rw [Service.startLocalSlavesStarted] at hc
  obtain ⟨p, hp, hps⟩ := List.mem_filterMap.mp hc
  simp only [slaveStart] at hps
  split_ifs at hps
  injection hps with h
  subst h
  exact ⟨rfl, rfl⟩

/-- Claim C6 witness: the theorem applied at the example service (own
address unset) and a concrete peer, yielding the loopback master
address. -/
theorem startLocalSlaves_masterAddress_witness :
    (exampleService.slaveConfig examplePeerB).MasterAddress
        = joinHostPort
            (if exampleService.OwnAddress = "" then "127.0.0.1" else exampleService.OwnAddress)
            (intDecStr exampleService.announcePort)
      ∧ (exampleService.slaveConfig examplePeerB).MasterAddress = exampleService.masterAddr :=
  startLocalSlaves_masterAddress exampleService allOk [examplePeerB]
    (exampleService.slaveConfig examplePeerB) (by decide)

/-- Claim C7: every slave configuration cloned from the parent has
`StartLocalSlaves` forced to false (so a slave never spawns further
slaves and the spawning recursion depth is bounded at one level), and a
peer whose ID equals the invoking instance's own ID is skipped, so no
started configuration carries the parent's ID. -/
theorem startLocalSlaves_no_recursive_spawn (s : Service) (newServiceOk : Config → Bool)
    (ps : List Peer) (c : Config)
    (hc : c ∈ s.startLocalSlavesStarted newServiceOk ps) :
    c.StartLocalSlaves = false ∧ c.ID ≠ s.ID := by
  rw [Service.startLocalSlavesStarted] at hc
  obtain ⟨p, hp, hps⟩ := List.mem_filterMap.mp hc
  simp only [slaveStart] at hps
  split_ifs at hps with h1 h2
  injection hps with h
  subst h
  exact ⟨rfl, h1⟩

/-- Claim C7 witness: the theorem applied at the example service and a
concrete non-self peer. -/
theorem startLocalSlaves_no_recursive_spawn_witness :
    (exampleService.slaveConfig examplePeerB).StartLocalSlaves = false
      ∧ (exampleService.slaveConfig examplePeerB).ID ≠ exampleService.ID :=
  startLocalSlaves_no_recursive_spawn exampleService allOk [examplePeerB]
    (exampleService.slaveConfig examplePeerB) (by decide)

/-- Unfolding the gone-detection loop on a failed query. -/
theorem waitGone_cons_true (f : Nat) (qs : List Bool) :
    waitUntilStarterGone f (true :: qs)
      = if f + 1 > 2 then some 1
        else (waitUntilStarterGone (f + 1) qs).map (· + 1) := rfl

/-- Unfolding the gone-detection loop on a successful query: the failure
counter resets to zero. -/
theorem waitGone_cons_false (f : Nat) (qs : List Bool) :
    waitUntilStarterGone f (false :: qs)
      = (waitUntilStarterGone 0 qs).map (· + 1) := rfl

/-- No three consecutive failures occur in an empty outcome sequence. -/
theorem hasThree_nil : ¬ hasThreeConsecutiveFailures [] := by
  rintro ⟨a, b, h⟩
  have hlen := congrArg List.length h
  simp only [List.length_nil, List.length_append, List.length_cons] at hlen
  omega

/-- Peeling one outcome off a three-consecutive-failures occurrence. -/
theorem hasThree_cons (x : Bool) (l : List Bool) :
    hasThreeConsecutiveFailures (x :: l) ↔
      (∃ b, x :: l = [true, true, true] ++ b) ∨ hasThreeConsecutiveFailures l := by
  constructor
  · rintro ⟨a, b, h⟩
    cases a with
    | nil => exact Or.inl ⟨b, h⟩
    | cons a0 a1 =>
      rw [List.cons_append, List.cons_append] at h
      injection h with h1 h2
      exact Or.inr ⟨a1, b, h2⟩
  · rintro (⟨b, h⟩ | ⟨a, b, h⟩)
    · exact ⟨[], b, h⟩
    · refine ⟨x :: a, b, ?_⟩
      rw [h, List.cons_append, List.cons_append]

/-- Invariant of the gone-detection loop: started with `f ≤ 2` prior
consecutive failures, it declares the starter gone within the available
outcome prefix exactly when the prefix starts with `3 - f` failures or
contains three consecutive failures. -/
theorem waitGone_isSome_iff :
    ∀ (qs : List Bool) (f : Nat), f ≤ 2 →
      ((waitUntilStarterGone f qs).isSome = true ↔
        (∃ b, qs = List.replicate (3 - f) true ++ b) ∨ hasThreeConsecutiveFailures qs) := by
  intro qs
  induction qs with
  | nil =>
    intro f hf
    constructor
    · intro h
      exact absurd h (by simp [waitUntilStarterGone])
    · rintro (⟨b, hb⟩ | h3)
      · have hlen := congrArg List.length hb
        simp only [List.length_nil, List.length_append, List.length_replicate] at hlen
        omega
      · exact absurd h3 hasThree_nil
  | cons q qs ih =>
    intro f hf
    cases q with
    | true =>
      by_cases hf2 : f = 2
      · subst hf2
        exact ⟨fun _ => Or.inl ⟨qs, rfl⟩, fun _ => rfl⟩
      · have hf1 : f + 1 ≤ 2 := by omega
        have hstep : waitUntilStarterGone f (true :: qs)
            = (waitUntilStarterGone (f + 1) qs).map (· + 1) := by
          rw [waitGone_cons_true, if_neg (by omega : ¬(f + 1 > 2))]
        have h3f2 : 3 - (f + 1) = 2 - f := by omega
        have h3f : 3 - f = (2 - f) + 1 := by omega
        rw [hstep, Option.isSome_map', ih (f + 1) hf1, h3f2, h3f, List.replicate_succ]
        constructor
        · rintro (⟨b, hb⟩ | h3)
          · refine Or.inl ⟨b, ?_⟩
            rw [List.cons_append, hb]
          · exact Or.inr ((hasThree_cons true qs).mpr (Or.inr h3))
        · rintro (⟨b, hb⟩ | h3)
          · rw [List.cons_append] at hb
            injection hb with h1 h2
            exact Or.inl ⟨b, h2⟩
          · rcases (hasThree_cons true qs).mp h3 with ⟨b, hb⟩ | h4
            · injection hb with h1 h2
              refine Or.inl ⟨List.replicate f true ++ b, ?_⟩
              rw [h2, ← List.append_assoc, List.append_replicate_replicate]
              have h2f : (2 - f) + f = 2 := by omega
              rw [h2f]
              rfl
            · exact Or.inr h4
    | false =>
      rw [waitGone_cons_false, Option.isSome_map', ih 0 (by omega)]
      constructor
      · rintro (⟨b, hb⟩ | h3)
        · exact Or.inr ((hasThree_cons false qs).mpr (Or.inr ⟨[], b, hb⟩))
        · exact Or.inr ((hasThree_cons false qs).mpr (Or.inr h3))
      · rintro (⟨b, hb⟩ | h3)
        · have h1 : 3 - f = (2 - f) + 1 := by omega
          rw [h1, List.replicate_succ, List.cons_append] at hb
          injection hb with hh1 hh2
          exact Bool.noConfusion hh1
        · rcases (hasThree_cons false qs).mp h3 with ⟨b, hb⟩ | h4
          · injection hb with hh1 hh2
            exact Bool.noConfusion hh1
          · exact Or.inr h4

/-- Claim C8: the gone-detection loop of `WaitUntilStarterGone` declares
the target gone exactly when three consecutive version queries fail — in
particular a target that fails twice and then succeeds is never declared
gone, since any success resets the failure counter to zero (second
conjunct), and with no three consecutive failures in the available
outcomes the loop keeps polling (`none`, i.e., it runs forever). -/
theorem waitUntilStarterGone_gone_iff :
    (∀ qs : List Bool,
        (waitUntilStarterGone 0 qs).isSome = true ↔ hasThreeConsecutiveFailures qs)
      ∧ (∀ (f : Nat) (qs : List Bool),
          waitUntilStarterGone f (false :: qs)
            = (waitUntilStarterGone 0 qs).map (· + 1)) := by
  constructor
  · intro qs
    rw [waitGone_isSome_iff qs 0 (by omega)]
    constructor
    · rintro (⟨b, hb⟩ | h3)
      · exact ⟨[], b, hb⟩
      · exact h3
    · intro h3
      exact Or.inr h3
  · intro f qs
    exact waitGone_cons_false f qs

end ArangoStarter
